import Mathlib

/-!
Verification of the validation-tools package (quality scoring engine and
schema-driven artifact validator) against its specification.

The package's public surface is declared in `tools/validation/__init__.py` and
exercised by `test_import.py` and `test_spec_validation.py`; the implementing
modules `quality_validator.py` and `spec_validation.py` are not part of the
checked-in sources, so every definition below is modelled from the
specification document, faithful to its wording, and checked against the
behaviour the test scripts assert.
-/

namespace SpecProof

/-! ## Severity and the other closed enumerations -/

/-- Modelled from the spec: `Severity` from the missing `quality_validator.py`
is "an ordered enumeration {low, medium, high, critical}". -/
inductive Severity
  | low
  | medium
  | high
  | critical
deriving DecidableEq, Repr

/-- Modelled from the spec: the lowercase string label of each `Severity`
member (the test asserts `Severity.CRITICAL.value == "critical"`). -/
def Severity.value : Severity → String
  | .low => "low"
  | .medium => "medium"
  | .high => "high"
  | .critical => "critical"

/-- Modelled from the spec: the fixed numeric penalty weight of each severity
("low=1, medium=2, high=5, critical=10"). -/
def Severity.weight : Severity → Nat
  | .low => 1
  | .medium => 2
  | .high => 5
  | .critical => 10

/-- Modelled from the spec: the ordinal of each severity in the declared
enumeration ordering low < medium < high < critical; used for threshold
comparisons, never the penalty weight. -/
def Severity.ord : Severity → Nat
  | .low => 0
  | .medium => 1
  | .high => 2
  | .critical => 3

/-- Modelled from the spec: coercion of a severity label to the `Severity`
enum; an unrecognized label is rejected (the `InvalidSeverity` condition). -/
def Severity.ofLabel : String → Option Severity
  | "low" => some .low
  | "medium" => some .medium
  | "high" => some .high
  | "critical" => some .critical
  | _ => none

/-- The enumeration ordering on severities (low < medium < high < critical). -/
def Severity.le (a b : Severity) : Prop := a.ord ≤ b.ord

instance (a b : Severity) : Decidable (Severity.le a b) :=
  inferInstanceAs (Decidable (a.ord ≤ b.ord))

/-- Modelled from the spec: `EvidenceQuality` from the missing
`quality_validator.py`, "an ordered enumeration {poor, fair, good, excellent}". -/
inductive EvidenceQuality
  | poor
  | fair
  | good
  | excellent
deriving DecidableEq, Repr

/-- Modelled from the spec: the lowercase string label of each
`EvidenceQuality` member. -/
def EvidenceQuality.value : EvidenceQuality → String
  | .poor => "poor"
  | .fair => "fair"
  | .good => "good"
  | .excellent => "excellent"

/-- Modelled from the spec: `RiskLevel` from the missing
`quality_validator.py`, "an ordered enumeration {low, medium, high, critical}
... independent namespace from Severity". -/
inductive RiskLevel
  | low
  | medium
  | high
  | critical
deriving DecidableEq, Repr

/-- Modelled from the spec: the lowercase string label of each `RiskLevel`
member. -/
def RiskLevel.value : RiskLevel → String
  | .low => "low"
  | .medium => "medium"
  | .high => "high"
  | .critical => "critical"

/-! ## ViolationRecord, QualityClaim and the scoring engine -/

/-- Modelled from the spec: `ViolationRecord` — "a rule identifier (string), a
human-readable message, the originating file path, an optional line number,
and a Severity. Immutable once created." -/
structure Violation where
  rule_id : String
  message : String
  file : String
  line : Option Nat
  severity : Severity
deriving DecidableEq, Repr

/-- Modelled from the spec: `QualityClaim` — "a metric name, an
EvidenceQuality, and a RiskLevel ... pure value object". -/
structure QualityClaim where
  metric : String
  evidence_quality : EvidenceQuality
  risk_level : RiskLevel
deriving DecidableEq, Repr

/-- Modelled from the spec: the `QualityValidator` session state from the
missing `quality_validator.py` — "owns a mutable collection of
ViolationRecords"; claims are "stored separately from violations". -/
structure QualityValidator where
  violations : List Violation
  claims : List QualityClaim
deriving Repr

/-- A fresh scoring-engine session (as obtained by `QualityValidator()`). -/
def QualityValidator.fresh : QualityValidator := ⟨[], []⟩

/-- Modelled from the spec: `add_violation` — "constructs and appends a
ViolationRecord; severity is supplied as a recognized label and coerced to
the Severity enum; fails with an InvalidSeverity condition if the label is
unrecognized". The fault is the `none` branch. -/
def QualityValidator.add_violation (qv : QualityValidator) (rule_id message file : String)
    (line : Option Nat) (severity : String) : Option (QualityValidator × Violation) :=
  match Severity.ofLabel severity with
  | none => none
  | some s =>
      let v : Violation := ⟨rule_id, message, file, line, s⟩
      some ({ qv with violations := qv.violations ++ [v] }, v)

/-- Modelled from the spec: `add_claim` — "same shape, for qualitative claims;
stored separately from violations and never affects the score". -/
def QualityValidator.add_claim (qv : QualityValidator) (metric : String)
    (eq_ : EvidenceQuality) (rl : RiskLevel) : QualityValidator × QualityClaim :=
  let c : QualityClaim := ⟨metric, eq_, rl⟩
  ({ qv with claims := qv.claims ++ [c] }, c)

/-- Total penalty of a violation list: the sum of the severities' weights. -/
def penaltySum (vs : List Violation) : Nat :=
  (vs.map (fun v => v.severity.weight)).sum

/-- Modelled from the spec: `AnalysisResult` — "overall_score (float, clamped
to [0,100]), the full ordered list of ViolationRecords, and derived counts
per severity". The score arithmetic is exact over the integers. -/
structure AnalysisResult where
  overall_score : Int
  violations : List Violation
  counts_by_severity : Severity → Nat

/-- Modelled from the spec: `analyze` — "deterministic, pure function of the
current violation list. Computes score = max(0, 100 − Σ weight(v.severity))
... Order of violations in the output preserves insertion order." -/
def QualityValidator.analyze (qv : QualityValidator) : AnalysisResult :=
  { overall_score := max 0 (100 - (penaltySum qv.violations : Int))
    violations := qv.violations
    counts_by_severity := fun s => qv.violations.countP (fun v => v.severity == s) }

/-- Modelled from the spec: `check_gate(fail_on)` — "returns false if any
stored violation has severity ≥ threshold in the Severity ordering, true
otherwise", with the threshold label coerced like `add_violation`'s. -/
def QualityValidator.check_gate (qv : QualityValidator) (fail_on : String) : Option Bool :=
  match Severity.ofLabel fail_on with
  | none => none
  | some t => some (! qv.violations.any (fun v => decide (Severity.le t v.severity)))

/-! ## JSON values and ValidationSchema -/

/-- Modelled from the spec: JSON documents as the artifact validators see them
(the raw-byte loading and the JSON parser itself are out of scope per the
spec's §1; parsing outcomes are modelled at the file-state level below). A
mapping is an association list of fields. -/
inductive Json
  | null
  | bool (b : Bool)
  | num (n : Int)
  | str (s : String)
  | arr (xs : List Json)
  | obj (fields : List (String × Json))

mutual

/-- Boolean equality on JSON values. -/
def Json.beq : Json → Json → Bool
  | .null, .null => true
  | .bool a, .bool b => a == b
  | .num a, .num b => a == b
  | .str a, .str b => a == b
  | .arr xs, .arr ys => Json.beqList xs ys
  | .obj fs, .obj gs => Json.beqFields fs gs
  | _, _ => false

/-- Boolean equality on JSON arrays. -/
def Json.beqList : List Json → List Json → Bool
  | [], [] => true
  | x :: xs, y :: ys => Json.beq x y && Json.beqList xs ys
  | _, _ => false

/-- Boolean equality on JSON field lists. -/
def Json.beqFields : List (String × Json) → List (String × Json) → Bool
  | [], [] => true
  | f :: fs, g :: gs => (f.1 == g.1 && Json.beq f.2 g.2) && Json.beqFields fs gs
  | _, _ => false

end

instance : BEq Json := ⟨Json.beq⟩

/-- A value that counts as "null/empty" for the required-field check of the
schema ("present and non-null" / "whose value is null/empty"). -/
def Json.isEmptyish : Json → Bool
  | .null => true
  | .str s => s == ""
  | .arr xs => xs.isEmpty
  | .obj fs => fs.isEmpty
  | _ => false

/-- Field lookup in a JSON mapping: the first binding of the key, as a Python
dict lookup behaves on its (duplicate-free) keys. -/
def lookupField : List (String × Json) → String → Option Json
  | [], _ => none
  | (k, v) :: rest, f => if k == f then some v else lookupField rest f

/-- Renders a JSON value for use inside diagnostic strings. -/
def Json.render : Json → String
  | .null => "null"
  | .bool b => if b then "true" else "false"
  | .num n => toString n
  | .str s => s
  | .arr xs => "[array with " ++ toString xs.length ++ " elements]"
  | .obj fs => "[object with " ++ toString fs.length ++ " fields]"

/-- Modelled from the spec: `ValidationSchema` — "required_fields (keys that
MUST be present and non-null), optional_fields (keys allowed but not
mandatory), allowed_values (mapping from field name to the set of values
considered valid for that field). Stateless, reusable." -/
structure ValidationSchema where
  required_fields : List String
  optional_fields : List String
  allowed_values : List (String × List Json)

/-- Modelled from the spec: pass 1 of `validate_data` — "for each key in
required_fields not present in data or whose value is null/empty: emit an
error naming the missing field (format must embed the field name verbatim)". -/
def requiredFieldErrors (sch : ValidationSchema) (data : List (String × Json)) : List String :=
  sch.required_fields.filterMap fun f =>
    match lookupField data f with
    | none => some ("Missing required field: " ++ f)
    | some v => if v.isEmptyish then some ("Missing required field: " ++ f) else none

/-- Modelled from the spec: pass 2 of `validate_data` — "for each key present
in data that is in neither required_fields nor optional_fields: emit a
warning (unrecognized field), never an error". -/
def unrecognizedFieldWarnings (sch : ValidationSchema) (data : List (String × Json)) :
    List String :=
  data.filterMap fun kv =>
    if sch.required_fields.contains kv.1 || sch.optional_fields.contains kv.1 then none
    else some ("Unrecognized field: " ++ kv.1)

/-- Modelled from the spec: pass 3 of `validate_data` — "for each key present
in allowed_values and also present in data: if the data value is not a member
of the configured allowed set, emit an error naming field, actual value, and
the allowed set". -/
def allowedValueErrors (sch : ValidationSchema) (data : List (String × Json)) : List String :=
  sch.allowed_values.filterMap fun fv =>
    match lookupField data fv.1 with
    | none => none
    | some v =>
        if fv.2.contains v then none
        else some ("Field " ++ fv.1 ++ " has value " ++ v.render ++ " not in allowed set ["
          ++ String.intercalate ", " (fv.2.map Json.render) ++ "]")

/-- Modelled from the spec: `validate_data(data) → (errors, warnings)`; the
errors list is the required-fields pass followed by the allowed-values pass
("missing-required errors always precede allowed-value errors"). -/
def ValidationSchema.validate_data (sch : ValidationSchema) (data : List (String × Json)) :
    List String × List String :=
  (requiredFieldErrors sch data ++ allowedValueErrors sch data,
   unrecognizedFieldWarnings sch data)

/-! ## File states, directories and per-artifact validators -/

/-- Modelled from the spec: the outcome of reading one file of the directory
bundle. File-system traversal and raw-byte loading, together with the JSON
parser, are out-of-scope primitives (spec §1), so a readable file carries its
raw text and the outcome of parsing that text as JSON (`none` when the text is
not well-formed JSON). -/
inductive FileState
  | missing
  | unreadable
  | readable (raw : String) (parsed : Option Json)

/-- Whether the file exists and is readable. -/
def FileState.isReadable : FileState → Bool
  | .readable _ _ => true
  | _ => false

/-- Whether a JSON artifact in this state fails before schema checking:
missing, unreadable, or readable but not parseable as JSON. -/
def FileState.isJsonFailure : FileState → Bool
  | .missing => true
  | .unreadable => true
  | .readable _ none => true
  | .readable _ (some _) => false

/-- Modelled from the spec: the directory bundle the Orchestrator reads,
as a mapping from file name to the state of the file of that name. -/
def Directory := String → FileState

/-- Modelled from the spec: `SpecValidationResult` — "a checkpoint name, a
valid flag, an ordered list of error strings, an ordered list of warning
strings". -/
structure SpecValidationResult where
  valid : Bool
  checkpoint : String
  errors : List String
  warnings : List String
deriving DecidableEq, Repr

/-- The three artifact file names of the Orchestrator's fixed convention. -/
def prereqFileNames : List String := ["context.json", "spec.md", "implementation_plan.json"]

/-- Modelled from the spec: `PrereqsValidator` — "checks that the three
expected artifact files exist in the directory and are readable; checkpoint
name prereqs; error per missing file, no warnings". -/
def PrereqsValidator.validate (dir : Directory) : SpecValidationResult :=
  let errors := prereqFileNames.filterMap fun fn =>
    match dir fn with
    | .missing => some ("Missing required file: " ++ fn)
    | .unreadable => some ("Cannot read file: " ++ fn)
    | .readable _ _ => none
  ⟨errors.isEmpty, "prereqs", errors, []⟩

/-- Modelled from the spec: `JSONFileValidator` — "parses a named file as JSON
(fails with a MalformedJSON error entry, not a raised fault, if parsing fails
— the result is always returned, never thrown) and runs the supplied
ValidationSchema against the parsed mapping". Every failure mode becomes an
error entry in the returned result. -/
def JSONFileValidator.validate (checkpoint fileName : String) (sch : ValidationSchema)
    (dir : Directory) : SpecValidationResult :=
  match dir fileName with
  | .missing => ⟨false, checkpoint, ["Missing required file: " ++ fileName], []⟩
  | .unreadable => ⟨false, checkpoint, ["Cannot read file: " ++ fileName], []⟩
  | .readable _ none => ⟨false, checkpoint, ["MalformedJSON: " ++ fileName], []⟩
  | .readable _ (some (.obj fields)) =>
      let ew := sch.validate_data fields
      ⟨ew.1.isEmpty, checkpoint, ew.1, ew.2⟩
  | .readable _ (some _) =>
      ⟨false, checkpoint, ["Root of " ++ fileName ++ " is not a JSON object"], []⟩

/-- Horizontal whitespace (and carriage return) for heading
normalization. -/
def isSpaceChar (c : Char) : Bool := c = ' ' || c = '\t' || c = '\r'

/-- Strips leading and trailing whitespace from a character sequence. -/
def trimChars (cs : List Char) : List Char :=
  ((cs.dropWhile isSpaceChar).reverse.dropWhile isSpaceChar).reverse

/-- Lowercases a character sequence. -/
def toLowerChars (cs : List Char) : List Char := cs.map Char.toLower

/-- Splits a character sequence into its newline-separated lines. -/
def splitLinesChars : List Char → List (List Char)
  | [] => [[]]
  | c :: cs =>
      match splitLinesChars cs with
      | [] => [[]]
      | l :: ls => if c = '\n' then [] :: l :: ls else (c :: l) :: ls

/-- Normalization applied to markdown section titles: case- and
whitespace-normalized, as the spec prescribes for heading matching. -/
def normalizeSection (s : String) : String := ⟨toLowerChars (trimChars s.data)⟩

/-- Modelled from the spec: the "extract section titles" primitive — the
normalized titles of the lines beginning with a `##`-style marker. -/
def extractSections (content : String) : List String :=
  (splitLinesChars content.data).filterMap fun line =>
    let t := trimChars line
    if ('#' :: '#' :: ' ' :: []).isPrefixOf t then
      some ⟨toLowerChars (trimChars (t.drop 3))⟩
    else none

/-- Modelled from the spec: `MarkdownDocumentValidator` — every required
section missing is an error, every recommended section missing is a warning
(never an error), and total content below the configured minimum length is a
warning, not an error. -/
def MarkdownDocumentValidator.validate (checkpoint fileName : String)
    (requiredSections recommendedSections : List String) (minContentLength : Nat)
    (dir : Directory) : SpecValidationResult :=
  match dir fileName with
  | .missing => ⟨false, checkpoint, ["Missing required file: " ++ fileName], []⟩
  | .unreadable => ⟨false, checkpoint, ["Cannot read file: " ++ fileName], []⟩
  | .readable raw _ =>
      let sections := extractSections raw
      let errors := requiredSections.filterMap fun s =>
        if sections.contains (normalizeSection s) then none
        else some ("Missing required section: " ++ s)
      let secWarnings := recommendedSections.filterMap fun s =>
        if sections.contains (normalizeSection s) then none
        else some ("Missing recommended section: " ++ s)
      let thinWarnings :=
        if raw.length < minContentLength then ["Content may be too thin"] else []
      ⟨errors.isEmpty, checkpoint, errors, secWarnings ++ thinWarnings⟩

/-! ## Default schemas and section sets -/

/-- Modelled from the spec: `DEFAULT_CONTEXT_SCHEMA` — "minimum requirement: a
non-empty task_description field". -/
def DEFAULT_CONTEXT_SCHEMA : ValidationSchema :=
  ⟨["task_description"], [], []⟩

/-- Modelled from the spec: `DEFAULT_IMPLEMENTATION_PLAN_SCHEMA` — "required
{feature: string, workflow_type: string, phases: non-empty sequence}". -/
def DEFAULT_IMPLEMENTATION_PLAN_SCHEMA : ValidationSchema :=
  ⟨["feature", "workflow_type", "phases"], [], []⟩

/-- Modelled from the spec: `DEFAULT_SPEC_REQUIRED_SECTIONS`. -/
def DEFAULT_SPEC_REQUIRED_SECTIONS : List String :=
  ["Overview", "Workflow Type", "Task Scope", "Success Criteria"]

/-- Modelled from the spec: `DEFAULT_SPEC_RECOMMENDED_SECTIONS`. -/
def DEFAULT_SPEC_RECOMMENDED_SECTIONS : List String :=
  ["Files to Modify", "Requirements"]

/-- Modelled from the spec: the default minimum content length of the
specification document; the exact constant is not fixed by the spec (thin
content is advisory only, so no checked property depends on its value). -/
def DEFAULT_MIN_CONTENT_LENGTH : Nat := 100

/-- Modelled from the spec: the fixed allowed set of subtask statuses
{pending, in_progress, completed, blocked}. -/
def allowedStatuses : List String := ["pending", "in_progress", "completed", "blocked"]

/-! ## Implementation-plan structural pass -/

/-- True when the field is present in the mapping with a non-null/empty
value. -/
def fieldNonEmpty (fields : List (String × Json)) (name : String) : Bool :=
  match lookupField fields name with
  | some v => ! v.isEmptyish
  | none => false

/-- Modelled from the spec: the per-subtask structural checks — "every subtask
must have id, description, and a status drawn from a fixed allowed set". -/
def subtaskErrors (st : Json) : List String :=
  match st with
  | .obj sf =>
      (if fieldNonEmpty sf "id" then [] else ["Subtask missing id"])
        ++ (if fieldNonEmpty sf "description" then [] else ["Subtask missing description"])
        ++ (match lookupField sf "status" with
            | some (.str s) =>
                if allowedStatuses.contains s then []
                else ["Invalid subtask status: " ++ s]
            | _ => ["Subtask missing status"])
  | _ => ["Subtask is not an object"]

/-- Modelled from the spec: the per-phase structural checks — "every phase
must have a non-empty id and name and a non-empty subtasks sequence". -/
def phaseErrors (p : Json) : List String :=
  match p with
  | .obj pf =>
      (if fieldNonEmpty pf "id" then [] else ["Phase missing id"])
        ++ (if fieldNonEmpty pf "name" then [] else ["Phase missing name"])
        ++ (match lookupField pf "subtasks" with
            | some (.arr []) => ["Phase has empty subtasks"]
            | some (.arr sts) => (sts.map subtaskErrors).flatten
            | some _ => ["Phase subtasks is not a sequence"]
            | none => ["Phase missing subtasks"])
  | _ => ["Phase is not an object"]

/-- The id of a phase object, when it carries a string id. -/
def phaseId (p : Json) : Option String :=
  match p with
  | .obj pf =>
      match lookupField pf "id" with
      | some (.str s) => some s
      | _ => none
  | _ => none

/-- The members of a list that occur again later in it (one entry per earlier
occurrence of a duplicated member). -/
def duplicatesIn : List String → List String
  | [] => []
  | x :: xs => (if xs.contains x then [x] else []) ++ duplicatesIn xs

/-- Modelled from the spec: "phase ids must be unique within the plan
(duplicate id ⇒ error naming the id)". -/
def duplicateIdErrors (ps : List Json) : List String :=
  (duplicatesIn (ps.filterMap phaseId)).map (fun i => "Duplicate phase id: " ++ i)

/-- Modelled from the spec: the cross-record structural pass of the
implementation-plan validator, run over the parsed plan mapping. -/
def planStructuralErrors (fields : List (String × Json)) : List String :=
  match lookupField fields "phases" with
  | some (.arr ps) => (ps.map phaseErrors).flatten ++ duplicateIdErrors ps
  | some _ => ["Field phases is not a sequence"]
  | none => []

/-- Modelled from the spec: `ImplementationPlanValidator` — a
JSONFileValidator bound to the plan file and the default plan schema,
"extended with a structural pass beyond flat-schema checking". -/
def ImplementationPlanValidator.validate (dir : Directory) : SpecValidationResult :=
  match dir "implementation_plan.json" with
  | .missing => ⟨false, "implementation_plan",
      ["Missing required file: implementation_plan.json"], []⟩
  | .unreadable => ⟨false, "implementation_plan",
      ["Cannot read file: implementation_plan.json"], []⟩
  | .readable _ none => ⟨false, "implementation_plan",
      ["MalformedJSON: implementation_plan.json"], []⟩
  | .readable _ (some (.obj fields)) =>
      let ew := DEFAULT_IMPLEMENTATION_PLAN_SCHEMA.validate_data fields
      let errors := ew.1 ++ planStructuralErrors fields
      ⟨errors.isEmpty, "implementation_plan", errors, ew.2⟩
  | .readable _ (some _) =>
      ⟨false, "implementation_plan",
        ["Root of implementation_plan.json is not a JSON object"], []⟩

/-! ## The Directory Orchestrator -/

/-- Modelled from the spec: the `SpecValidator` Orchestrator, "constructed
from one directory path"; it holds only the directory reference. -/
structure SpecValidator where
  dir : Directory

/-- Thin dispatch to the prerequisites check. -/
def SpecValidator.validate_prereqs (sv : SpecValidator) : SpecValidationResult :=
  PrereqsValidator.validate sv.dir

/-- Modelled from the spec: `ContextValidator` — "a JSONFileValidator bound to
the context file and DEFAULT_CONTEXT_SCHEMA". -/
def SpecValidator.validate_context (sv : SpecValidator) : SpecValidationResult :=
  JSONFileValidator.validate "context" "context.json" DEFAULT_CONTEXT_SCHEMA sv.dir

/-- Modelled from the spec: `SpecDocumentValidator` — "a
MarkdownDocumentValidator bound to the specification file and the default
required/recommended section sets". -/
def SpecValidator.validate_spec_document (sv : SpecValidator) : SpecValidationResult :=
  MarkdownDocumentValidator.validate "spec" "spec.md" DEFAULT_SPEC_REQUIRED_SECTIONS
    DEFAULT_SPEC_RECOMMENDED_SECTIONS DEFAULT_MIN_CONTENT_LENGTH sv.dir

/-- Thin dispatch to the implementation-plan check. -/
def SpecValidator.validate_implementation_plan (sv : SpecValidator) : SpecValidationResult :=
  ImplementationPlanValidator.validate sv.dir

/-- Modelled from the spec: `validate_all` — "runs all four checks in the
fixed order prereqs → context → spec → plan", with no short-circuiting. -/
def SpecValidator.validate_all (sv : SpecValidator) : List SpecValidationResult :=
  [sv.validate_prereqs, sv.validate_context, sv.validate_spec_document,
   sv.validate_implementation_plan]

/-- Modelled from the spec: `is_valid` — "true iff every result from
validate_all has valid == true". -/
def SpecValidator.is_valid (sv : SpecValidator) : Bool :=
  sv.validate_all.all (fun r => r.valid)

/-- Modelled from the spec: the `get_summary` output shape. -/
structure SpecSummary where
  all_valid : Bool
  total_errors : Nat
  total_warnings : Nat
  checkpoints : List (String × SpecValidationResult)

/-- Modelled from the spec: `get_summary` — all_valid with total error and
warning counts and the per-checkpoint results. -/
def SpecValidator.get_summary (sv : SpecValidator) : SpecSummary :=
  let results := sv.validate_all
  { all_valid := results.all (fun r => r.valid)
    total_errors := (results.map (fun r => r.errors.length)).sum
    total_warnings := (results.map (fun r => r.warnings.length)).sum
    checkpoints := results.map (fun r => (r.checkpoint, r)) }

/-- Modelled from the spec: the free function `validate_spec_directory` —
"convenience wrapper equivalent to constructing the Orchestrator and calling
get_summary()". -/
def validate_spec_directory (dir : Directory) : SpecSummary :=
  SpecValidator.get_summary ⟨dir⟩

/-! ## Well-formedness predicates for the round-trip property -/

/-- True when the required field is absent from the mapping or bound to a
null/empty value (the condition of the schema's required-fields pass). -/
def missingOrEmpty (data : List (String × Json)) (f : String) : Bool :=
  match lookupField data f with
  | none => true
  | some v => v.isEmptyish

/-- A context mapping satisfying the default context schema: a non-empty
task_description field. -/
def contextSatisfiesDefaultSchema (ctx : List (String × Json)) : Bool :=
  fieldNonEmpty ctx "task_description"

/-- A specification document containing every default required section. -/
def specDocHasRequiredSections (raw : String) : Bool :=
  DEFAULT_SPEC_REQUIRED_SECTIONS.all
    (fun s => (extractSections raw).contains (normalizeSection s))

/-- A subtask with an id, a description and a status from the allowed set. -/
def wellFormedSubtask (st : Json) : Bool :=
  match st with
  | .obj sf =>
      fieldNonEmpty sf "id" && fieldNonEmpty sf "description"
        && (match lookupField sf "status" with
            | some (.str s) => allowedStatuses.contains s
            | _ => false)
  | _ => false

/-- A phase with a non-empty id and name and a non-empty sequence of
well-formed subtasks. -/
def wellFormedPhase (p : Json) : Bool :=
  match p with
  | .obj pf =>
      fieldNonEmpty pf "id" && fieldNonEmpty pf "name"
        && (match lookupField pf "subtasks" with
            | some (.arr sts) => !sts.isEmpty && sts.all wellFormedSubtask
            | _ => false)
  | _ => false

/-- A plan mapping satisfying the default plan schema and the structural
rules: feature, workflow_type, a non-empty phases sequence of well-formed
phases with pairwise-distinct ids. -/
def wellFormedPlan (fields : List (String × Json)) : Bool :=
  fieldNonEmpty fields "feature" && fieldNonEmpty fields "workflow_type"
    && (match lookupField fields "phases" with
        | some (.arr ps) =>
            !ps.isEmpty && ps.all wellFormedPhase && decide (ps.filterMap phaseId).Nodup
        | _ => false)

/-! ## A concrete well-formed directory (the test scripts' temp directory) -/

/-- The context document written by `test_spec_validation.py`. -/
def sampleContextFields : List (String × Json) :=
  [("task_description", .str "Test task")]

/-- The specification document written by `test_spec_validation.py`
(its four default required sections and the two recommended ones). -/
def sampleSpecRaw : String :=
  "# Test Spec\n\n## Overview\nThis is a test spec.\n\n## Workflow Type\nFeature development.\n\n## Task Scope\nTesting the spec validator.\n\n## Success Criteria\nAll tests pass.\n\n## Files to Modify\n- test.py\n\n## Requirements\n- Must work correctly.\n"

/-- The implementation plan written by `test_spec_validation.py`. -/
def samplePlanFields : List (String × Json) :=
  [("feature", .str "Test Feature"),
   ("workflow_type", .str "feature"),
   ("phases", .arr
     [.obj
       [("id", .str "phase-1"),
        ("name", .str "Setup"),
        ("subtasks", .arr
          [.obj
            [("id", .str "task-1"),
             ("description", .str "Test task"),
             ("status", .str "pending")]])]])]

/-- The temp directory the test scripts construct: the three artifact files,
readable and well formed, and nothing else. -/
def sampleDirectory : Directory := fun n =>
  if n = "context.json" then .readable "ctx" (some (.obj sampleContextFields))
  else if n = "spec.md" then .readable sampleSpecRaw none
  else if n = "implementation_plan.json" then .readable "plan" (some (.obj samplePlanFields))
  else .missing

/-! ## Theorems about the Quality Scoring Engine -/

/-- Claim C1: for every sequence of accumulated violations, `analyze` returns
an overall score equal to clamp(100 − Σ penalty(severity), 0, 100), with
weights low=1, medium=2, high=5, critical=10; the floor is 0 so the score is
never negative. -/
theorem analyze_score_is_clamped_penalty (qv : QualityValidator) :
    (qv.analyze).overall_score
        = max 0 (min 100 (100 - (penaltySum qv.violations : Int)))
      ∧ 0 ≤ (qv.analyze).overall_score
      ∧ (qv.analyze).overall_score ≤ 100
      ∧ Severity.weight .low = 1 ∧ Severity.weight .medium = 2
      ∧ Severity.weight .high = 5 ∧ Severity.weight .critical = 10 := by
  refine ⟨?_, ?_, ?_, rfl, rfl, rfl, rfl⟩ <;> simp only [QualityValidator.analyze] <;> omega

/-- Claim C2: for every stored multiset of violations and recognized threshold
label, `check_gate` returns false iff some stored violation has severity ≥ the
threshold in the Severity enumeration ordering; the result is unchanged when
the violations strictly below the threshold are discarded, and on every pair
of severities the enumeration ordering used by the gate coincides with the
weight ordering only by accident of the current monotone weights — the gate
compares ordinals, as the third conjunct records. -/
theorem check_gate_iff_severity_ge_threshold (vs : List Violation) (cs : List QualityClaim)
    (lbl : String) (t : Severity) (h : Severity.ofLabel lbl = some t) :
    (QualityValidator.check_gate ⟨vs, cs⟩ lbl = some false
        ↔ ∃ v ∈ vs, Severity.le t v.severity)
      ∧ QualityValidator.check_gate ⟨vs, cs⟩ lbl
          = QualityValidator.check_gate
              ⟨vs.filter (fun v => decide (Severity.le t v.severity)), cs⟩ lbl
      ∧ (∀ a b : Severity, Severity.le a b ↔ a.ord ≤ b.ord) := by
  refine ⟨?_, ?_, fun a b => Iff.rfl⟩
  · simp [QualityValidator.check_gate, h, List.any_eq_true]
  · simp only [QualityValidator.check_gate, h]
    congr 1
    simp [List.any_filter, List.any_eq_true]

/-- Witness for C2 at a concrete session: one medium violation stored,
threshold label "high". -/
theorem check_gate_iff_severity_ge_threshold_witness :
    (QualityValidator.check_gate ⟨[⟨"TEST-001", "m", "f.py", some 10, .medium⟩], []⟩ "high"
          = some false
        ↔ ∃ v ∈ [(⟨"TEST-001", "m", "f.py", some 10, .medium⟩ : Violation)],
            Severity.le .high v.severity)
      ∧ QualityValidator.check_gate ⟨[⟨"TEST-001", "m", "f.py", some 10, .medium⟩], []⟩ "high"
          = QualityValidator.check_gate
              ⟨[(⟨"TEST-001", "m", "f.py", some 10, .medium⟩ : Violation)].filter
                  (fun v => decide (Severity.le .high v.severity)), []⟩ "high"
      ∧ (∀ a b : Severity, Severity.le a b ↔ a.ord ≤ b.ord) :=
  check_gate_iff_severity_ge_threshold
    [⟨"TEST-001", "m", "f.py", some 10, .medium⟩] [] "high" .high rfl

/-- Claim C8: on a fresh session with exactly one "medium" violation added,
`analyze` reports an overall score of 98 over a single-violation list, and
`check_gate "high"` passes (returns true). -/
theorem one_medium_violation_scenario :
    ∃ qv v, QualityValidator.fresh.add_violation "TEST-001" "Test violation" "test.py"
          (some 10) "medium" = some (qv, v)
      ∧ (qv.analyze).overall_score = 98
      ∧ (qv.analyze).violations.length = 1
      ∧ qv.check_gate "high" = some true := by
  refine ⟨_, _, rfl, ?_, ?_, ?_⟩ <;> decide

/-- Claim C10: the closed enumerations expose their labels as lowercase string
values: `Severity.critical.value = "critical"`, `RiskLevel.high.value = "high"`,
`EvidenceQuality.excellent.value = "excellent"` (and likewise for every other
member). -/
theorem enum_values_are_lowercase_labels :
    Severity.value .critical = "critical"
      ∧ RiskLevel.value .high = "high"
      ∧ EvidenceQuality.value .excellent = "excellent"
      ∧ (∀ s : Severity, Severity.ofLabel s.value = some s) := by
  refine ⟨rfl, rfl, rfl, ?_⟩
  intro s
  cases s <;> rfl

/-! ## Helper lemmas about field lookup and the schema passes -/

/-- Looking a key up in a duplicate-free mapping is invariant under
reordering of the mapping's entries. -/
theorem lookupField_perm {d1 d2 : List (String × Json)} (h : d1.Perm d2)
    (hnd : (d1.map Prod.fst).Nodup) (k : String) :
    lookupField d1 k = lookupField d2 k := by
  induction h with
  | nil => rfl
  | cons x h ih =>
      obtain ⟨a, b⟩ := x
      simp only [List.map_cons, List.nodup_cons] at hnd
      simp only [lookupField]
      by_cases hak : (a == k) = true
      · simp [hak]
      · simp only [hak, Bool.false_eq_true, if_false]
        exact ih hnd.2
  | swap x y l =>
      obtain ⟨a, b⟩ := x
      obtain ⟨c, d⟩ := y
      simp only [List.map_cons, List.nodup_cons, List.mem_cons] at hnd
      simp only [lookupField]
      by_cases hck : (c == k) = true <;> by_cases hak : (a == k) = true
      · exact absurd (Or.inl ((eq_of_beq hck).trans (eq_of_beq hak).symm)) hnd.1
      · simp [hck, hak]
      · simp [hck, hak]
      · simp [hck, hak]
  | trans h1 _h2 ih1 ih2 =>
      have hnd2 := ((h1.map Prod.fst).nodup_iff).mp hnd
      rw [ih1 hnd, ih2 hnd2]

/-- Appending an entry for a different key does not change a lookup. -/
theorem lookupField_append_ne (d : List (String × Json)) (k : String) (v : Json)
    (f : String) (hne : f ≠ k) :
    lookupField (d ++ [(k, v)]) f = lookupField d f := by
  induction d with
  | nil =>
      simp only [List.nil_append, lookupField]
      have hkf : (k == f) = false := by simpa using Ne.symm hne
      simp [hkf]
  | cons a d ih =>
      obtain ⟨a1, a2⟩ := a
      simp only [List.cons_append, lookupField]
      by_cases ha : (a1 == f) = true <;> simp [ha, ih]

/-- A present non-empty field yields a successful, non-emptyish lookup. -/
theorem fieldNonEmpty_lookup {d : List (String × Json)} {f : String}
    (h : fieldNonEmpty d f = true) :
    ∃ v, lookupField d f = some v ∧ v.isEmptyish = false := by
  unfold fieldNonEmpty at h
  cases hl : lookupField d f with
  | none => rw [hl] at h; exact absurd h (by simp)
  | some v =>
      rw [hl] at h
      exact ⟨v, rfl, by simpa using h⟩

/-- A readable file state is a `readable` constructor application. -/
theorem FileState.isReadable_ex {st : FileState} (h : st.isReadable = true) :
    ∃ r p, st = FileState.readable r p := by
  cases st with
  | missing => exact absurd h (by simp [FileState.isReadable])
  | unreadable => exact absurd h (by simp [FileState.isReadable])
  | readable r p => exact ⟨r, p, rfl⟩

/-- The required-fields pass emits nothing when every required field is
present and non-empty. -/
theorem requiredFieldErrors_eq_nil {sch : ValidationSchema} {d : List (String × Json)}
    (h : ∀ f ∈ sch.required_fields, fieldNonEmpty d f = true) :
    requiredFieldErrors sch d = [] := by
  unfold requiredFieldErrors
  rw [List.filterMap_eq_nil_iff]
  intro f hf
  obtain ⟨v, hl, he⟩ := fieldNonEmpty_lookup (h f hf)
  simp [hl, he]

/-- The allowed-values pass of a schema with no configured allowed sets emits
nothing. -/
theorem allowedValueErrors_of_empty (sch : ValidationSchema) (d : List (String × Json))
    (h : sch.allowed_values = []) : allowedValueErrors sch d = [] := by
  unfold allowedValueErrors
  rw [h]
  rfl

/-- A well-formed subtask passes the structural subtask checks. -/
theorem subtaskErrors_eq_nil {st : Json} (h : wellFormedSubtask st = true) :
    subtaskErrors st = [] := by
  cases st with
  | obj sf =>
      unfold wellFormedSubtask at h
      simp only [Bool.and_eq_true] at h
      obtain ⟨⟨hid, hdesc⟩, hmatch⟩ := h
      unfold subtaskErrors
      split at hmatch
      next s heq =>
          have hmem : s ∈ allowedStatuses := List.elem_iff.mp hmatch
          simp [heq, hid, hdesc, hmem]
      next => simp at hmatch
  | null => simp [wellFormedSubtask] at h
  | bool b => simp [wellFormedSubtask] at h
  | num n => simp [wellFormedSubtask] at h
  | str s => simp [wellFormedSubtask] at h
  | arr xs => simp [wellFormedSubtask] at h

/-- A well-formed phase passes the structural phase checks. -/
theorem phaseErrors_eq_nil {p : Json} (h : wellFormedPhase p = true) :
    phaseErrors p = [] := by
  cases p with
  | obj pf =>
      unfold wellFormedPhase at h
      simp only [Bool.and_eq_true] at h
      obtain ⟨⟨hid, hname⟩, hmatch⟩ := h
      unfold phaseErrors
      split at hmatch
      next sts heq =>
          simp only [Bool.and_eq_true] at hmatch
          obtain ⟨hne, hall⟩ := hmatch
          cases sts with
          | nil => simp at hne
          | cons s0 rest =>
              have hallP : ∀ st ∈ s0 :: rest, subtaskErrors st = [] :=
                fun st hst => subtaskErrors_eq_nil (List.all_eq_true.mp hall st hst)
              simp only [heq, hid, hname]
              simp only [if_true]
              simp [hallP s0 (List.mem_cons_self s0 rest)]
              intro a ha
              exact hallP a (List.mem_cons_of_mem s0 ha)
      next => simp at hmatch
  | null => simp [wellFormedPhase] at h
  | bool b => simp [wellFormedPhase] at h
  | num n => simp [wellFormedPhase] at h
  | str s => simp [wellFormedPhase] at h
  | arr xs => simp [wellFormedPhase] at h

/-- A duplicate-free list has no duplicates to report. -/
theorem duplicatesIn_eq_nil {l : List String} (h : l.Nodup) : duplicatesIn l = [] := by
  induction l with
  | nil => rfl
  | cons x xs ih =>
      rw [List.nodup_cons] at h
      unfold duplicatesIn
      have hx : xs.contains x = false := by simpa using h.1
      simp [hx, h.1, ih h.2]

/-- A well-formed plan passes the cross-record structural pass. -/
theorem planStructuralErrors_eq_nil {plan : List (String × Json)}
    (h : wellFormedPlan plan = true) : planStructuralErrors plan = [] := by
  unfold wellFormedPlan at h
  simp only [Bool.and_eq_true] at h
  obtain ⟨⟨hfeat, hwf⟩, hmatch⟩ := h
  unfold planStructuralErrors
  split at hmatch
  next ps heq =>
      simp only [Bool.and_eq_true] at hmatch
      obtain ⟨⟨hne, hall⟩, hnd⟩ := hmatch
      have h1 : (ps.map phaseErrors).flatten = [] := by
        rw [List.flatten_eq_nil_iff]
        intro l hl
        obtain ⟨p, hp, rfl⟩ := List.mem_map.mp hl
        exact phaseErrors_eq_nil (List.all_eq_true.mp hall p hp)
      have h2 : duplicateIdErrors ps = [] := by
        unfold duplicateIdErrors
        rw [duplicatesIn_eq_nil (of_decide_eq_true hnd)]
        rfl
      simp [heq, h1, h2]
  next => simp at hmatch

/-- A well-formed plan passes the default flat plan schema. -/
theorem plan_schema_errors_eq_nil {plan : List (String × Json)}
    (h : wellFormedPlan plan = true) :
    (DEFAULT_IMPLEMENTATION_PLAN_SCHEMA.validate_data plan).1 = [] := by
  unfold wellFormedPlan at h
  simp only [Bool.and_eq_true] at h
  obtain ⟨⟨hfeat, hwf⟩, hmatch⟩ := h
  have hph : fieldNonEmpty plan "phases" = true := by
    split at hmatch
    next ps heq =>
        simp only [Bool.and_eq_true] at hmatch
        unfold fieldNonEmpty
        rw [heq]
        simpa [Json.isEmptyish] using hmatch.1.1
    next => simp at hmatch
  have hreq : requiredFieldErrors DEFAULT_IMPLEMENTATION_PLAN_SCHEMA plan = [] := by
    apply requiredFieldErrors_eq_nil
    intro f hf
    simp [DEFAULT_IMPLEMENTATION_PLAN_SCHEMA] at hf
    rcases hf with rfl | rfl | rfl
    · exact hfeat
    · exact hwf
    · exact hph
  have hav := allowedValueErrors_of_empty DEFAULT_IMPLEMENTATION_PLAN_SCHEMA plan rfl
  simp [ValidationSchema.validate_data, hreq, hav]

/-- A context mapping with a non-empty task_description passes the default
context schema. -/
theorem context_errors_eq_nil {ctx : List (String × Json)}
    (h : contextSatisfiesDefaultSchema ctx = true) :
    (DEFAULT_CONTEXT_SCHEMA.validate_data ctx).1 = [] := by
  have hreq : requiredFieldErrors DEFAULT_CONTEXT_SCHEMA ctx = [] := by
    apply requiredFieldErrors_eq_nil
    intro f hf
    simp [DEFAULT_CONTEXT_SCHEMA] at hf
    rw [hf]
    exact h
  have hav := allowedValueErrors_of_empty DEFAULT_CONTEXT_SCHEMA ctx rfl
  simp [ValidationSchema.validate_data, hreq, hav]

/-- A readable markdown document containing every required section passes the
markdown validator without errors. -/
theorem markdown_errors_eq_nil {raw : String} {req : List String}
    (h : ∀ s ∈ req, (extractSections raw).contains (normalizeSection s) = true)
    (cp fn : String) (rec : List String) (minLen : Nat) (dir : Directory)
    (oj : Option Json) (hd : dir fn = .readable raw oj) :
    (MarkdownDocumentValidator.validate cp fn req rec minLen dir).errors = [] := by
  simp only [MarkdownDocumentValidator.validate, hd]
  rw [List.filterMap_eq_nil_iff]
  intro s hs
  have hmem : normalizeSection s ∈ extractSections raw := List.elem_iff.mp (h s hs)
  simp [hmem]

/-! ## Theorems about ValidationSchema -/

/-- Claim C5: for every schema and input mapping, each required field that is
absent or bound to a null/empty value contributes an error string embedding
that field's name verbatim as a substring. -/
theorem missing_required_error_names_field (sch : ValidationSchema)
    (data : List (String × Json)) (f : String)
    (hreq : f ∈ sch.required_fields) (hmiss : missingOrEmpty data f = true) :
    ∃ err ∈ (sch.validate_data data).1, ∃ p q, err = p ++ f ++ q := by
  refine ⟨"Missing required field: " ++ f, ?_, "Missing required field: ", "", ?_⟩
  · apply List.mem_append_left
    apply List.mem_filterMap.mpr
    refine ⟨f, hreq, ?_⟩
    cases hl : lookupField data f with
    | none => simp [hl]
    | some v =>
        have hv : v.isEmptyish = true := by
          unfold missingOrEmpty at hmiss
          rw [hl] at hmiss
          exact hmiss
        simp [hl, hv]
  · rw [String.append_empty]

/-- Witness for C5: the default context schema applied to an empty mapping
emits an error embedding "task_description". -/
theorem missing_required_error_names_field_witness :
    ∃ err ∈ (DEFAULT_CONTEXT_SCHEMA.validate_data []).1,
      ∃ p q, err = p ++ "task_description" ++ q :=
  missing_required_error_names_field DEFAULT_CONTEXT_SCHEMA [] "task_description"
    (by decide) rfl

/-- Counterexample to claim C6 as stated: the returned (errors, warnings) pair
is not invariant under reordering the input mapping — two unrecognized fields
produce their warnings in the mapping's iteration order. -/
theorem validate_data_output_depends_on_mapping_order :
    ([("a", Json.null), ("b", Json.null)] : List (String × Json)).Perm
        [("b", Json.null), ("a", Json.null)]
      ∧ (([("a", Json.null), ("b", Json.null)] : List (String × Json)).map Prod.fst).Nodup
      ∧ ValidationSchema.validate_data ⟨[], [], []⟩ [("a", Json.null), ("b", Json.null)]
          ≠ ValidationSchema.validate_data ⟨[], [], []⟩ [("b", Json.null), ("a", Json.null)] := by
  refine ⟨List.Perm.swap _ _ _, by decide, ?_⟩
  intro h
  have := congrArg (fun p => p.2) h
  simp [ValidationSchema.validate_data, unrecognizedFieldWarnings] at this

/-- Claim C6 (amended): the errors list of `validate_data` is invariant under
reordering of the (duplicate-free) input mapping and the warnings list is
reordered by at most a permutation; within the returned errors every
missing-required-field error precedes every disallowed-value error (the
required-fields pass runs before the allowed-values pass). -/
theorem validate_data_order_stability (sch : ValidationSchema)
    (d1 d2 : List (String × Json)) (hperm : d1.Perm d2)
    (hnd : (d1.map Prod.fst).Nodup) :
    (sch.validate_data d1).1 = (sch.validate_data d2).1
      ∧ (sch.validate_data d1).2.Perm (sch.validate_data d2).2
      ∧ ∀ d, (sch.validate_data d).1
          = requiredFieldErrors sch d ++ allowedValueErrors sch d := by
  have hlk : ∀ f, lookupField d1 f = lookupField d2 f :=
    fun f => lookupField_perm hperm hnd f
  refine ⟨?_, ?_, fun d => rfl⟩
  · unfold ValidationSchema.validate_data requiredFieldErrors allowedValueErrors
    simp only []
    congr 1
    · exact List.filterMap_congr (fun f _ => by rw [hlk f])
    · exact List.filterMap_congr (fun fv _ => by rw [hlk fv.1])
  · exact hperm.filterMap _

/-- Witness for the amended C6 at the concrete reordered mapping of the
counterexample. -/
theorem validate_data_order_stability_witness :
    (ValidationSchema.validate_data ⟨[], [], []⟩ [("a", Json.null), ("b", Json.null)]).1
        = (ValidationSchema.validate_data ⟨[], [], []⟩ [("b", Json.null), ("a", Json.null)]).1
      ∧ (ValidationSchema.validate_data ⟨[], [], []⟩
            [("a", Json.null), ("b", Json.null)]).2.Perm
          (ValidationSchema.validate_data ⟨[], [], []⟩
            [("b", Json.null), ("a", Json.null)]).2
      ∧ ∀ d, (ValidationSchema.validate_data ⟨[], [], []⟩ d).1
          = requiredFieldErrors ⟨[], [], []⟩ d ++ allowedValueErrors ⟨[], [], []⟩ d :=
  validate_data_order_stability ⟨[], [], []⟩ [("a", Json.null), ("b", Json.null)]
    [("b", Json.null), ("a", Json.null)] (List.Perm.swap _ _ _) (by decide)

/-! ## Theorems about the per-artifact validators -/

/-- Claim C3: every per-artifact validator is a total function into
`SpecValidationResult`: on a missing, unreadable or malformed-JSON target it
still returns a result, with the failure converted into an error entry (a
parse failure yields the MalformedJSON entry), never a raised fault. -/
theorem validate_total_on_failed_files (cp fn : String) (sch : ValidationSchema)
    (dir : Directory) (st : FileState) (raw : String)
    (req rec : List String) (minLen : Nat)
    (hst : dir fn = st)
    (hplanst : dir "implementation_plan.json" = st)
    (hfail : st.isJsonFailure = true) :
    ((JSONFileValidator.validate cp fn sch dir).valid = false
        ∧ (JSONFileValidator.validate cp fn sch dir).errors ≠ [])
      ∧ ((ImplementationPlanValidator.validate dir).valid = false
        ∧ (ImplementationPlanValidator.validate dir).errors ≠ [])
      ∧ (JSONFileValidator.validate cp fn sch (fun _ => FileState.readable raw none)).errors
          = ["MalformedJSON: " ++ fn]
      ∧ ((MarkdownDocumentValidator.validate cp fn req rec minLen
            (fun _ => FileState.missing)).valid = false
        ∧ (MarkdownDocumentValidator.validate cp fn req rec minLen
            (fun _ => FileState.missing)).errors ≠ [])
      ∧ ((MarkdownDocumentValidator.validate cp fn req rec minLen
            (fun _ => FileState.unreadable)).valid = false
        ∧ (MarkdownDocumentValidator.validate cp fn req rec minLen
            (fun _ => FileState.unreadable)).errors ≠ []) := by
  refine ⟨?_, ?_, by simp [JSONFileValidator.validate], ?_, ?_⟩
  · cases st with
    | missing => simp [JSONFileValidator.validate, hst]
    | unreadable => simp [JSONFileValidator.validate, hst]
    | readable r p =>
        cases p with
        | none => simp [JSONFileValidator.validate, hst]
        | some j => exact absurd hfail (by simp [FileState.isJsonFailure])
  · cases st with
    | missing => simp [ImplementationPlanValidator.validate, hplanst]
    | unreadable => simp [ImplementationPlanValidator.validate, hplanst]
    | readable r p =>
        cases p with
        | none => simp [ImplementationPlanValidator.validate, hplanst]
        | some j => exact absurd hfail (by simp [FileState.isJsonFailure])
  · simp [MarkdownDocumentValidator.validate]
  · simp [MarkdownDocumentValidator.validate]

/-- Witness for C3 on a directory with every file missing. -/
theorem validate_total_on_failed_files_witness :
    ((JSONFileValidator.validate "context" "context.json" DEFAULT_CONTEXT_SCHEMA
          (fun _ => FileState.missing)).valid = false
        ∧ (JSONFileValidator.validate "context" "context.json" DEFAULT_CONTEXT_SCHEMA
            (fun _ => FileState.missing)).errors ≠ [])
      ∧ ((ImplementationPlanValidator.validate (fun _ => FileState.missing)).valid = false
        ∧ (ImplementationPlanValidator.validate (fun _ => FileState.missing)).errors ≠ [])
      ∧ (JSONFileValidator.validate "context" "context.json" DEFAULT_CONTEXT_SCHEMA
            (fun _ => FileState.readable "not json" none)).errors
          = ["MalformedJSON: " ++ "context.json"]
      ∧ ((MarkdownDocumentValidator.validate "context" "context.json"
            DEFAULT_SPEC_REQUIRED_SECTIONS DEFAULT_SPEC_RECOMMENDED_SECTIONS
            DEFAULT_MIN_CONTENT_LENGTH (fun _ => FileState.missing)).valid = false
        ∧ (MarkdownDocumentValidator.validate "context" "context.json"
            DEFAULT_SPEC_REQUIRED_SECTIONS DEFAULT_SPEC_RECOMMENDED_SECTIONS
            DEFAULT_MIN_CONTENT_LENGTH (fun _ => FileState.missing)).errors ≠ [])
      ∧ ((MarkdownDocumentValidator.validate "context" "context.json"
            DEFAULT_SPEC_REQUIRED_SECTIONS DEFAULT_SPEC_RECOMMENDED_SECTIONS
            DEFAULT_MIN_CONTENT_LENGTH (fun _ => FileState.unreadable)).valid = false
        ∧ (MarkdownDocumentValidator.validate "context" "context.json"
            DEFAULT_SPEC_REQUIRED_SECTIONS DEFAULT_SPEC_RECOMMENDED_SECTIONS
            DEFAULT_MIN_CONTENT_LENGTH (fun _ => FileState.unreadable)).errors ≠ []) :=
  validate_total_on_failed_files "context" "context.json" DEFAULT_CONTEXT_SCHEMA
    (fun _ => FileState.missing) FileState.missing "not json"
    DEFAULT_SPEC_REQUIRED_SECTIONS DEFAULT_SPEC_RECOMMENDED_SECTIONS
    DEFAULT_MIN_CONTENT_LENGTH rfl rfl rfl

/-- Claim C7: warnings are advisory and never make a result invalid — every
validator's valid flag equals the emptiness of its errors list alone; the
advisory conditions (missing recommended section, thin content, unrecognized
field) only ever reach the warnings list; and a result with valid = true and
non-empty warnings exists. -/
theorem warnings_never_block_validity (cp fn : String) (req rec : List String)
    (minLen : Nat) (dir : Directory) (sch : ValidationSchema)
    (d : List (String × Json)) (k : String) (v : Json)
    (hk1 : k ∉ sch.required_fields)
    (hk2 : ∀ fv ∈ sch.allowed_values, fv.1 ≠ k)
    (hk3 : k ∉ sch.optional_fields) :
    (MarkdownDocumentValidator.validate cp fn req rec minLen dir).errors
        = (MarkdownDocumentValidator.validate cp fn req [] 0 dir).errors
      ∧ (MarkdownDocumentValidator.validate cp fn req rec minLen dir).valid
          = (MarkdownDocumentValidator.validate cp fn req rec minLen dir).errors.isEmpty
      ∧ (JSONFileValidator.validate cp fn sch dir).valid
          = (JSONFileValidator.validate cp fn sch dir).errors.isEmpty
      ∧ (PrereqsValidator.validate dir).valid
          = (PrereqsValidator.validate dir).errors.isEmpty
      ∧ (ImplementationPlanValidator.validate dir).valid
          = (ImplementationPlanValidator.validate dir).errors.isEmpty
      ∧ (sch.validate_data (d ++ [(k, v)])).1 = (sch.validate_data d).1
      ∧ ("Unrecognized field: " ++ k) ∈ (sch.validate_data (d ++ [(k, v)])).2
      ∧ (MarkdownDocumentValidator.validate "spec" "spec.md" [] ["Requirements"] 0
            (fun _ => FileState.readable "" none)).valid = true
      ∧ (MarkdownDocumentValidator.validate "spec" "spec.md" [] ["Requirements"] 0
            (fun _ => FileState.readable "" none)).warnings ≠ [] := by
  refine ⟨?_, ?_, ?_, rfl, ?_, ?_, ?_, by decide, by decide⟩
  · cases hd : dir fn <;> simp [MarkdownDocumentValidator.validate, hd]
  · cases hd : dir fn <;> simp [MarkdownDocumentValidator.validate, hd]
  · cases hd : dir fn with
    | missing => simp [JSONFileValidator.validate, hd]
    | unreadable => simp [JSONFileValidator.validate, hd]
    | readable r p =>
        cases p with
        | none => simp [JSONFileValidator.validate, hd]
        | some j => cases j <;> simp [JSONFileValidator.validate, hd]
  · cases hd : dir "implementation_plan.json" with
    | missing => simp [ImplementationPlanValidator.validate, hd]
    | unreadable => simp [ImplementationPlanValidator.validate, hd]
    | readable r p =>
        cases p with
        | none => simp [ImplementationPlanValidator.validate, hd]
        | some j => cases j <;> simp [ImplementationPlanValidator.validate, hd]
  · unfold ValidationSchema.validate_data requiredFieldErrors allowedValueErrors
    simp only []
    congr 1
    · refine List.filterMap_congr (fun f hf => ?_)
      rw [lookupField_append_ne d k v f (fun hfk => hk1 (hfk ▸ hf))]
    · refine List.filterMap_congr (fun fv hfv => ?_)
      rw [lookupField_append_ne d k v fv.1 (hk2 fv hfv)]
  · unfold ValidationSchema.validate_data unrecognizedFieldWarnings
    simp only [List.filterMap_append]
    apply List.mem_append_right
    simp [hk1, hk3]

/-- Witness for C7: the default context schema, an empty mapping, one
unrecognized field "extra". -/
theorem warnings_never_block_validity_witness :
    (MarkdownDocumentValidator.validate "x" "context.json" [] [] 0
          (fun _ => FileState.missing)).errors
        = (MarkdownDocumentValidator.validate "x" "context.json" [] [] 0
            (fun _ => FileState.missing)).errors
      ∧ (MarkdownDocumentValidator.validate "x" "context.json" [] [] 0
            (fun _ => FileState.missing)).valid
          = (MarkdownDocumentValidator.validate "x" "context.json" [] [] 0
              (fun _ => FileState.missing)).errors.isEmpty
      ∧ (JSONFileValidator.validate "x" "context.json" DEFAULT_CONTEXT_SCHEMA
            (fun _ => FileState.missing)).valid
          = (JSONFileValidator.validate "x" "context.json" DEFAULT_CONTEXT_SCHEMA
              (fun _ => FileState.missing)).errors.isEmpty
      ∧ (PrereqsValidator.validate (fun _ => FileState.missing)).valid
          = (PrereqsValidator.validate (fun _ => FileState.missing)).errors.isEmpty
      ∧ (ImplementationPlanValidator.validate (fun _ => FileState.missing)).valid
          = (ImplementationPlanValidator.validate (fun _ => FileState.missing)).errors.isEmpty
      ∧ (DEFAULT_CONTEXT_SCHEMA.validate_data ([] ++ [("extra", Json.null)])).1
          = (DEFAULT_CONTEXT_SCHEMA.validate_data []).1
      ∧ ("Unrecognized field: " ++ "extra")
          ∈ (DEFAULT_CONTEXT_SCHEMA.validate_data ([] ++ [("extra", Json.null)])).2
      ∧ (MarkdownDocumentValidator.validate "spec" "spec.md" [] ["Requirements"] 0
            (fun _ => FileState.readable "" none)).valid = true
      ∧ (MarkdownDocumentValidator.validate "spec" "spec.md" [] ["Requirements"] 0
            (fun _ => FileState.readable "" none)).warnings ≠ [] :=
  warnings_never_block_validity "x" "context.json" [] [] 0 (fun _ => FileState.missing)
    DEFAULT_CONTEXT_SCHEMA [] "extra" Json.null (by decide)
    (by intro fv hfv; exact absurd hfv (by simp [DEFAULT_CONTEXT_SCHEMA])) (by decide)

/-- Claim C9: the Orchestrator's fixed file-name convention is exactly
context.json, spec.md and implementation_plan.json: with those three files
readable the prereqs checkpoint is valid with no errors, and each per-artifact
check reads only the file of its exact name (two directories agreeing on that
one name produce identical results). -/
theorem orchestrator_fixed_filenames (dir dir2 : Directory)
    (h1 : (dir "context.json").isReadable = true)
    (h2 : (dir "spec.md").isReadable = true)
    (h3 : (dir "implementation_plan.json").isReadable = true)
    (e1 : dir "context.json" = dir2 "context.json")
    (e2 : dir "spec.md" = dir2 "spec.md")
    (e3 : dir "implementation_plan.json" = dir2 "implementation_plan.json") :
    SpecValidator.validate_prereqs ⟨dir⟩
        = ⟨true, "prereqs", [], []⟩
      ∧ SpecValidator.validate_context ⟨dir⟩ = SpecValidator.validate_context ⟨dir2⟩
      ∧ SpecValidator.validate_spec_document ⟨dir⟩
          = SpecValidator.validate_spec_document ⟨dir2⟩
      ∧ SpecValidator.validate_implementation_plan ⟨dir⟩
          = SpecValidator.validate_implementation_plan ⟨dir2⟩ := by
  refine ⟨?_, ?_, ?_, ?_⟩
  · obtain ⟨r1, p1, hc⟩ := FileState.isReadable_ex h1
    obtain ⟨r2, p2, hs⟩ := FileState.isReadable_ex h2
    obtain ⟨r3, p3, hp⟩ := FileState.isReadable_ex h3
    simp [SpecValidator.validate_prereqs, PrereqsValidator.validate, prereqFileNames,
      hc, hs, hp]
  · unfold SpecValidator.validate_context JSONFileValidator.validate
    simp only [e1]
  · unfold SpecValidator.validate_spec_document MarkdownDocumentValidator.validate
    simp only [e2]
  · unfold SpecValidator.validate_implementation_plan ImplementationPlanValidator.validate
    simp only [e3]

/-- Witness for C9 on the concrete well-formed sample directory. -/
theorem orchestrator_fixed_filenames_witness :
    SpecValidator.validate_prereqs ⟨sampleDirectory⟩
        = ⟨true, "prereqs", [], []⟩
      ∧ SpecValidator.validate_context ⟨sampleDirectory⟩
          = SpecValidator.validate_context ⟨sampleDirectory⟩
      ∧ SpecValidator.validate_spec_document ⟨sampleDirectory⟩
          = SpecValidator.validate_spec_document ⟨sampleDirectory⟩
      ∧ SpecValidator.validate_implementation_plan ⟨sampleDirectory⟩
          = SpecValidator.validate_implementation_plan ⟨sampleDirectory⟩ :=
  orchestrator_fixed_filenames sampleDirectory sampleDirectory rfl rfl rfl rfl rfl rfl

/-- Claim C4: a directory whose three artifact files satisfy all default
schemas — a context JSON with a non-empty task_description, a specification
document containing every default required section, and a well-formed plan
(feature, workflow_type, non-empty phases with unique non-empty ids, names
and non-empty subtask lists of well-formed subtasks) — is accepted:
`is_valid` is true and the summary reports zero total errors. -/
theorem valid_directory_roundtrip (dir : Directory) (rawC rawS rawP : String)
    (ojS : Option Json) (ctx plan : List (String × Json))
    (hc : dir "context.json" = .readable rawC (some (.obj ctx)))
    (hs : dir "spec.md" = .readable rawS ojS)
    (hp : dir "implementation_plan.json" = .readable rawP (some (.obj plan)))
    (hctx : contextSatisfiesDefaultSchema ctx = true)
    (hspec : specDocHasRequiredSections rawS = true)
    (hplan : wellFormedPlan plan = true) :
    SpecValidator.is_valid ⟨dir⟩ = true
      ∧ (SpecValidator.get_summary ⟨dir⟩).total_errors = 0
      ∧ (SpecValidator.get_summary ⟨dir⟩).all_valid = true := by
  have hprereq : SpecValidator.validate_prereqs ⟨dir⟩ = ⟨true, "prereqs", [], []⟩ := by
    simp [SpecValidator.validate_prereqs, PrereqsValidator.validate, prereqFileNames,
      hc, hs, hp]
  have hce : (DEFAULT_CONTEXT_SCHEMA.validate_data ctx).1 = [] := context_errors_eq_nil hctx
  have hctxr : SpecValidator.validate_context ⟨dir⟩
      = ⟨true, "context", [], (DEFAULT_CONTEXT_SCHEMA.validate_data ctx).2⟩ := by
    simp [SpecValidator.validate_context, JSONFileValidator.validate, hc, hce]
  have hspecerr : ∀ s ∈ DEFAULT_SPEC_REQUIRED_SECTIONS,
      (extractSections rawS).contains (normalizeSection s) = true := by
    intro s hsmem
    exact List.all_eq_true.mp hspec s hsmem
  have hmd : (SpecValidator.validate_spec_document ⟨dir⟩).errors = [] :=
    markdown_errors_eq_nil hspecerr "spec" "spec.md" DEFAULT_SPEC_RECOMMENDED_SECTIONS
      DEFAULT_MIN_CONTENT_LENGTH dir ojS hs
  have hmdv : (SpecValidator.validate_spec_document ⟨dir⟩).valid = true := by
    simp only [SpecValidator.validate_spec_document, MarkdownDocumentValidator.validate,
      hs] at hmd ⊢
    simp_all
  have hpe : (DEFAULT_IMPLEMENTATION_PLAN_SCHEMA.validate_data plan).1 = [] :=
    plan_schema_errors_eq_nil hplan
  have hps : planStructuralErrors plan = [] := planStructuralErrors_eq_nil hplan
  have hplr : SpecValidator.validate_implementation_plan ⟨dir⟩
      = ⟨true, "implementation_plan", [],
          (DEFAULT_IMPLEMENTATION_PLAN_SCHEMA.validate_data plan).2⟩ := by
    simp [SpecValidator.validate_implementation_plan, ImplementationPlanValidator.validate,
      hp, hpe, hps]
  refine ⟨?_, ?_, ?_⟩
  · simp [SpecValidator.is_valid, SpecValidator.validate_all, hprereq, hctxr, hmdv, hplr]
  · simp [SpecValidator.get_summary, SpecValidator.validate_all, hprereq, hctxr, hmd, hplr]
  · simp [SpecValidator.get_summary, SpecValidator.validate_all, hprereq, hctxr, hmdv, hplr]

set_option maxRecDepth 40000 in
/-- Witness for C4 on the concrete directory that `test_spec_validation.py`
constructs. -/
theorem valid_directory_roundtrip_witness :
    SpecValidator.is_valid ⟨sampleDirectory⟩ = true
      ∧ (SpecValidator.get_summary ⟨sampleDirectory⟩).total_errors = 0
      ∧ (SpecValidator.get_summary ⟨sampleDirectory⟩).all_valid = true :=
  valid_directory_roundtrip sampleDirectory "ctx" sampleSpecRaw "plan" none
    sampleContextFields samplePlanFields rfl rfl rfl (by decide) (by decide) (by decide)

end SpecProof
